import Mathlib

/-!
A shallow embedding of the proxy-pool core of `proxy_handler.py`
(`MultiProxyScholarly`): proxy validation (`_validate_proxies`), pool
maintenance (`_remove_proxy`, `_mark_access_time`), availability scheduling
(`_get_available_pool`, `_wait_for_any_proxy`, `_pick_proxy_generator`),
and the retry/eviction engine (`get_citation_count`).

Randomness (`random.shuffle`, `random.choice`, `random.uniform`), the wall
clock (`time.time()`) and the remote service (`requests.get`,
`scholarly.search_pubs` / `scholarly.fill`) are modelled as oracle streams
held in environment records; cursors into those streams are threaded through
an explicit state record.  Times and durations are exact rationals.
-/

/-- Executable addition on `ℚ`.  `Rat.add` is `@[irreducible]`, so the
embedding computes with `mkRat` instead; `ratAdd_eq` identifies this with
the ring addition. -/
def ratAdd (a b : ℚ) : ℚ := mkRat (a.num * b.den + b.num * a.den) (a.den * b.den)

/-- Executable subtraction on `ℚ`; `ratSub_eq` identifies it with `a - b`. -/
def ratSub (a b : ℚ) : ℚ := mkRat (a.num * b.den - b.num * a.den) (a.den * b.den)

/-- Executable multiplication on `ℚ`; `ratMul_eq` identifies it with `a * b`. -/
def ratMul (a b : ℚ) : ℚ := mkRat (a.num * b.num) (a.den * b.den)

/-- One entry of `self.proxy_pool`: the Python dict
`{"proxy_url": ..., "pg": ..., "interval": ..., "last_access": ...}`
built in `_validate_proxies`.  The `ProxyGenerator` object `pg` is opaque;
it is modelled by the numeric identity of the fresh object allocated for the
candidate (one fresh `ProxyGenerator()` per candidate tried). -/
structure ProxyItem where
  proxy_url : String
  pg : Nat
  interval : ℚ
  last_access : ℚ
deriving DecidableEq

/-- Oracle environment for `_validate_proxies`: the Fisher-Yates draws behind
`random.shuffle`, whether `pg.SingleProxy(...)` succeeds for the i-th
candidate tried, the outcome of the HTTPS probe `requests.get(test_url, ...)`
(`none` models an exception, `some c` a reply with status code `c`), and the
unit-interval draw behind `random.uniform(min_interval, max_interval)`. -/
structure ProbeEnv where
  shuffleRand : Nat → Nat
  singleProxyOk : Nat → Bool
  probeStatus : Nat → Option Nat
  unif : Nat → ℚ

/-- The in-place swap `x[i], x[j] = x[j], x[i]` performed by one step of
CPython's `random.shuffle`, rendered with value semantics. -/
def listSwap {α : Type} (l : List α) (i j : Nat) : List α :=
  match l[i]?, l[j]? with
  | some a, some b => (l.set i b).set j a
  | _, _ => l

/-- CPython `random.shuffle` walks `i = len-1, ..., 1` and swaps `x[i]` with
`x[j]` for `j = randbelow(i+1)`.  The counter argument is the current `i`. -/
def shuffleAux {α : Type} (rand : Nat → Nat) : Nat → List α → List α
  | 0, l => l
  | i+1, l => shuffleAux rand i (listSwap l (i+1) (rand (i+1) % (i+2)))

/-- `random.shuffle(x)`: in-place Fisher-Yates shuffle, as a function from the
old list value to the new one. -/
def shuffle {α : Type} (rand : Nat → Nat) (l : List α) : List α :=
  shuffleAux rand (l.length - 1) l

/-- The body of the candidate loop of `_validate_proxies`, after the shuffle:
`c` ranges over the (shuffled) candidates, `i` is the index of the current
iteration (also used as the identity of the fresh `ProxyGenerator()`), `acc`
is `valid_list`.  A candidate is accepted only if `pg.SingleProxy` succeeds
and the HTTPS probe returns status 200; acceptance assigns
`interval = random.uniform(min_interval, max_interval)`, rendered as
`minI + (maxI - minI) * u` with `u` the unit-interval draw, and
`last_access = 0.0`. -/
def validateLoop (env : ProbeEnv) (minI maxI : ℚ) (maxProxies : Nat) :
    List String → Nat → List ProxyItem → List ProxyItem
  | [], _, acc => acc
  | c :: rest, i, acc =>
    if maxProxies ≤ acc.length then acc
    else if env.singleProxyOk i = false then
      validateLoop env minI maxI maxProxies rest (i+1) acc
    else
      match env.probeStatus i with
      | some 200 =>
          validateLoop env minI maxI maxProxies rest (i+1)
            (acc ++ [⟨c, i, ratAdd minI (ratMul (ratSub maxI minI) (env.unif i)), 0⟩])
      | _ => validateLoop env minI maxI maxProxies rest (i+1) acc

/-- Result of `_validate_proxies`: the returned `valid_list`, together with
the value of the caller-supplied `all_proxy_urls` list after the call
(the call shuffles that list in place). -/
structure ValidateResult where
  pool : List ProxyItem
  candidatesAfter : List String
deriving DecidableEq

/-- `_validate_proxies(all_proxy_urls, max_proxies, test_url, min_interval,
max_interval)`: shuffles the caller's list in place, then scans it in the
shuffled order, accepting at most `max_proxies` candidates. -/
def validateProxies (env : ProbeEnv) (maxProxies : Nat) (minI maxI : ℚ)
    (all_proxy_urls : List String) : ValidateResult :=
  let shuffled := shuffle env.shuffleRand all_proxy_urls
  ⟨validateLoop env minI maxI maxProxies shuffled 0 [], shuffled⟩

/-- Outcome of one remote query attempt (`scholarly.search_pubs` +
`next` + `scholarly.fill`): `noResult` models `next(it, None)` returning
`None`; `success o` models a filled record whose `num_citations` field is
`o` (absent when `o = none`); `failure msg` models an exception with text
`msg` raised anywhere inside the `try` block. -/
inductive RemoteResult where
  | noResult : RemoteResult
  | success : Option Int → RemoteResult
  | failure : String → RemoteResult
deriving DecidableEq

/-- Whether a `RemoteResult` is an exception. -/
def RemoteResult.isFailure : RemoteResult → Bool
  | .failure _ => true
  | _ => false

/-- The substring test `"Cannot fetch from Google Scholar." in str(e)`. -/
def refusalSignal (msg : String) : Bool :=
  decide ("Cannot fetch from Google Scholar.".toList <:+: msg.toList)

/-- Oracle environment for the dispatch engine: successive `time.time()`
readings, successive draws behind `random.choice`, and the outcome of each
successive remote query attempt. -/
structure Env where
  clock : Nat → ℚ
  rand : Nat → Nat
  remote : Nat → RemoteResult

/-- Mutable session state: `self.proxy_pool` plus the cursors into the three
oracle streams (how many clock readings, random draws and remote attempts
have been consumed so far). -/
structure EngineState where
  pool : List ProxyItem
  ct : Nat
  rt : Nat
  qt : Nat
deriving DecidableEq

/-- `_get_available_pool`: the members with `now - last_access >= interval`. -/
def getAvailablePool (now : ℚ) (pool : List ProxyItem) : List ProxyItem :=
  pool.filter fun item => item.interval ≤ ratSub now item.last_access

/-- `_mark_access_time(item)`: set the member's `last_access` to the current
`time.time()` reading.  The Python code mutates the dict through its object
identity; with value semantics this updates the occurrences equal to `item`
(pool entries are pairwise distinct, each holding a distinct fresh `pg`). -/
def markAccess (pool : List ProxyItem) (item : ProxyItem) (now : ℚ) :
    List ProxyItem :=
  pool.map fun x => if x = item then { x with last_access := now } else x

/-- Return codes of `get_citation_count`.  `-4`: the pool is empty at the top
of an attempt. -/
def poolEmptyCode : Int := -4

/-- Return code `-3`: `_pick_proxy_generator` returned `None`. -/
def noProxyAvailableCode : Int := -3

/-- Return code `-2`: the keyword search produced no publication. -/
def noResultFoundCode : Int := -2

/-- Return code `-1`: all `max_retry` attempts failed. -/
def attemptsExhaustedCode : Int := -1

/-- `_pick_proxy_generator(max_pick_retry)`: loop up to `max_pick_retry`
times; return `None` if the pool is empty; compute the available subset at
the current clock reading; if it is empty, `_wait_for_any_proxy` reads the
clock once more and sleeps (the sleep influences only subsequent clock
readings, which the oracle supplies), then retry; otherwise return a
`random.choice` of the available subset (`scholarly.use_proxy` is an
external effect carrying no pool state). -/
def pickProxyGenerator (env : Env) : Nat → EngineState → Option ProxyItem × EngineState
  | 0, s => (none, s)
  | n+1, s =>
    if s.pool = [] then (none, s)
    else
      match getAvailablePool (env.clock s.ct) s.pool with
      | [] => pickProxyGenerator env n { s with ct := s.ct + 2 }
      | a :: rest =>
          (some ((a :: rest).get ⟨env.rand s.rt % (rest.length + 1),
              Nat.mod_lt _ (Nat.succ_pos _)⟩),
           { s with ct := s.ct + 1, rt := s.rt + 1 })

/-- `get_citation_count(paper_title, max_retry)`: the retry/eviction engine.
The fuel argument counts the remaining top-level attempts
(`for attempt in range(1, max_retry+1)`); the paper title itself does not
influence control flow and is absorbed into the remote oracle.  Returns the
Python return value together with the final state. -/
def getCitationCount (env : Env) : Nat → EngineState → Int × EngineState
  | 0, s => (attemptsExhaustedCode, s)
  | n+1, s =>
    if s.pool = [] then (poolEmptyCode, s)
    else
      match pickProxyGenerator env 10 s with
      | (none, s₁) => (noProxyAvailableCode, s₁)
      | (some item, s₁) =>
        match env.remote s₁.qt with
        | .noResult => (noResultFoundCode, { s₁ with qt := s₁.qt + 1 })
        | .success numCitations =>
            (numCitations.getD 0,
             { s₁ with
               pool := markAccess s₁.pool item (env.clock s₁.ct),
               ct := s₁.ct + 1,
               qt := s₁.qt + 1 })
        | .failure msg =>
            getCitationCount env n
              (if refusalSignal msg then
                { s₁ with pool := s₁.pool.erase item, qt := s₁.qt + 1 }
              else
                { s₁ with pool := s₁.pool.erase item, qt := s₁.qt + 1 })

/-! Concrete inputs used by the witness and counterexample theorems. -/

/-- A pool member with cooldown 1 that has never been used. -/
def itemA : ProxyItem := ⟨"a", 0, 1, 0⟩

/-- A pool member with cooldown 2 that has never been used. -/
def itemB : ProxyItem := ⟨"b", 1, 2, 0⟩

/-- A pool member with cooldown 5 that has never been used. -/
def itemC5s : ProxyItem := ⟨"p", 0, 5, 0⟩

/-- Dispatch environment in which every remote attempt raises. -/
def envAllFail : Env := ⟨fun _ => 100, fun _ => 0, fun _ => RemoteResult.failure "boom"⟩

/-- Dispatch environment in which every remote attempt finds no publication. -/
def envNoResult : Env := ⟨fun _ => 100, fun _ => 0, fun _ => RemoteResult.noResult⟩

/-- Dispatch environment in which every remote attempt succeeds with a record
carrying `num_citations = 50000`. -/
def envSuccess : Env := ⟨fun _ => 100, fun _ => 0, fun _ => RemoteResult.success (some 50000)⟩

/-- Dispatch environment in which every remote attempt succeeds with a record
lacking the `num_citations` field. -/
def envNoField : Env := ⟨fun _ => 100, fun _ => 0, fun _ => RemoteResult.success none⟩

/-- State with an empty pool. -/
def sEmpty : EngineState := ⟨[], 0, 0, 0⟩

/-- State whose pool holds `itemA` only. -/
def sOne : EngineState := ⟨[itemA], 0, 0, 0⟩

/-- State whose pool holds `itemA` and `itemB`. -/
def sTwo : EngineState := ⟨[itemA, itemB], 0, 0, 0⟩

/-- Probe environment that accepts every candidate and draws 0 from the unit
interval. -/
def probeAccept : ProbeEnv := ⟨fun _ => 0, fun _ => true, fun _ => some 200, fun _ => 0⟩

/-- Probe environment that accepts every candidate and draws 1/2 from the
unit interval. -/
def probeAcceptHalf : ProbeEnv := ⟨fun _ => 0, fun _ => true, fun _ => some 200, fun _ => mkRat 1 2⟩

/-! Bridging lemmas: the executable rational operations agree with the ring
operations of `ℚ`. -/

/-- `ratAdd` computes `a + b`. -/
theorem ratAdd_eq (a b : ℚ) : ratAdd a b = a + b := by
  have ha : ((a.den : ℚ)) ≠ 0 := Nat.cast_ne_zero.mpr a.den_nz
  have hb : ((b.den : ℚ)) ≠ 0 := Nat.cast_ne_zero.mpr b.den_nz
  rw [ratAdd, Rat.mkRat_eq_div]
  push_cast
  conv_rhs => rw [← Rat.num_div_den a, ← Rat.num_div_den b, div_add_div _ _ ha hb]
  ring

/-- `ratSub` computes `a - b`. -/
theorem ratSub_eq (a b : ℚ) : ratSub a b = a - b := by
  have ha : ((a.den : ℚ)) ≠ 0 := Nat.cast_ne_zero.mpr a.den_nz
  have hb : ((b.den : ℚ)) ≠ 0 := Nat.cast_ne_zero.mpr b.den_nz
  rw [ratSub, Rat.mkRat_eq_div]
  push_cast
  conv_rhs => rw [← Rat.num_div_den a, ← Rat.num_div_den b, div_sub_div _ _ ha hb]
  ring

/-- `ratMul` computes `a * b`. -/
theorem ratMul_eq (a b : ℚ) : ratMul a b = a * b := by
  have ha : ((a.den : ℚ)) ≠ 0 := Nat.cast_ne_zero.mpr a.den_nz
  have hb : ((b.den : ℚ)) ≠ 0 := Nat.cast_ne_zero.mpr b.den_nz
  rw [ratMul, Rat.mkRat_eq_div]
  push_cast
  conv_rhs => rw [← Rat.num_div_den a, ← Rat.num_div_den b, div_mul_div_comm]

/-! Permutation facts about the Fisher-Yates shuffle. -/

/-- Writing `a` into the position `j` currently holding `b` and re-attaching
`b` at the front permutes attaching `a` at the front. -/
theorem cons_set_perm {α : Type} : ∀ (xs : List α) (j : Nat) (a b : α),
    xs[j]? = some b → (b :: xs.set j a).Perm (a :: xs)
  | [], j, a, b, h => by simp at h
  | c :: cs, 0, a, b, h => by
      have hb : c = b := by simpa using h
      subst hb
      simpa using List.Perm.swap a c cs
  | c :: cs, j+1, a, b, h => by
      simp only [List.getElem?_cons_succ] at h
      have ih := cons_set_perm cs j a b h
      simp only [List.set_cons_succ]
      exact (List.Perm.swap c b _).trans ((ih.cons c).trans (List.Perm.swap a c cs))

/-- One CPython swap step permutes the list. -/
theorem listSwap_perm {α : Type} : ∀ (l : List α) (i j : Nat), (listSwap l i j).Perm l
  | [], _, _ => by simp [listSwap]
  | x :: xs, 0, 0 => by simp [listSwap]
  | x :: xs, 0, j+1 => by
      cases hj : xs[j]? with
      | none => simp [listSwap, hj]
      | some b =>
        simpa [listSwap, hj] using cons_set_perm xs j x b hj
  | x :: xs, i+1, 0 => by
      cases hi : xs[i]? with
      | none => simp [listSwap, hi]
      | some a =>
        simpa [listSwap, hi] using cons_set_perm xs i x a hi
  | x :: xs, i+1, j+1 => by
      have ih := listSwap_perm xs i j
      cases hi : xs[i]? with
      | none => simp [listSwap, hi]
      | some a =>
        cases hj : xs[j]? with
        | none => simp [listSwap, hi, hj]
        | some b =>
          simp only [listSwap, hi, hj, List.getElem?_cons_succ, List.set_cons_succ] at ih ⊢
          exact ih.cons x

/-- Every pass of the shuffle loop permutes the list. -/
theorem shuffleAux_perm {α : Type} (rand : Nat → Nat) :
    ∀ (n : Nat) (l : List α), (shuffleAux rand n l).Perm l
  | 0, l => List.Perm.refl l
  | n+1, l => (shuffleAux_perm rand n _).trans (listSwap_perm l (n+1) _)

/-- `random.shuffle` permutes the list it mutates. -/
theorem shuffle_perm {α : Type} (rand : Nat → Nat) (l : List α) :
    (shuffle rand l).Perm l :=
  shuffleAux_perm rand (l.length - 1) l

/-! Helper facts about the pool operations. -/

/-- The available subset is a subset of the pool. -/
theorem getAvailablePool_subset (now : ℚ) (pool : List ProxyItem) :
    ∀ item, item ∈ getAvailablePool now pool → item ∈ pool := by
  intro item h
  exact (List.mem_filter.mp h).1

/-- `_mark_access_time` does not change which transport handles the pool
holds. -/
theorem markAccess_map_pg (item : ProxyItem) (now : ℚ) :
    ∀ pool : List ProxyItem,
      (markAccess pool item now).map ProxyItem.pg = pool.map ProxyItem.pg
  | [] => rfl
  | x :: xs => by
      have ih := markAccess_map_pg item now xs
      simp only [markAccess, List.map_cons] at ih ⊢
      rw [ih]
      by_cases hx : x = item <;> simp [hx]

/-- `_mark_access_time` does not change which addresses the pool holds. -/
theorem markAccess_map_url (item : ProxyItem) (now : ℚ) :
    ∀ pool : List ProxyItem,
      (markAccess pool item now).map ProxyItem.proxy_url
        = pool.map ProxyItem.proxy_url
  | [] => rfl
  | x :: xs => by
      have ih := markAccess_map_url item now xs
      simp only [markAccess, List.map_cons] at ih ⊢
      rw [ih]
      by_cases hx : x = item <;> simp [hx]

/-- `_pick_proxy_generator` never mutates the pool. -/
theorem pickProxyGenerator_pool (env : Env) :
    ∀ (n : Nat) (s : EngineState), ((pickProxyGenerator env n s).2).pool = s.pool
  | 0, _ => rfl
  | n+1, s => by
      simp only [pickProxyGenerator]
      split
      · rfl
      · split
        · simpa using pickProxyGenerator_pool env n _
        · rfl

/-- `_pick_proxy_generator` consumes no remote-query attempt. -/
theorem pickProxyGenerator_qt (env : Env) :
    ∀ (n : Nat) (s : EngineState), ((pickProxyGenerator env n s).2).qt = s.qt
  | 0, _ => rfl
  | n+1, s => by
      simp only [pickProxyGenerator]
      split
      · rfl
      · split
        · simpa using pickProxyGenerator_qt env n _
        · rfl

/-- A proxy returned by `_pick_proxy_generator` is a current pool member. -/
theorem pickProxyGenerator_mem (env : Env) :
    ∀ (n : Nat) (s : EngineState) (item : ProxyItem) (s₁ : EngineState),
      pickProxyGenerator env n s = (some item, s₁) → item ∈ s.pool
  | 0, s, item, s₁, h => by simp [pickProxyGenerator] at h
  | n+1, s, item, s₁, h => by
      simp only [pickProxyGenerator] at h
      split at h
      · simp at h
      · split at h
        next heq =>
          simpa using pickProxyGenerator_mem env n _ item s₁ h
        next a rest heq =>
          rw [Prod.mk.injEq] at h
          obtain ⟨h1, -⟩ := h
          have hget := Option.some.inj h1
          have hmem : item ∈ a :: rest := hget ▸ List.get_mem _ _ _
          have hav : item ∈ getAvailablePool (env.clock s.ct) s.pool := by
            rw [heq]; exact hmem
          exact getAvailablePool_subset _ _ _ hav

/-! Facts about the validation loop. -/

/-- Every entry of the returned `valid_list` was either already accumulated
or was accepted at some iteration `j ≥ i`, with the accepted shape. -/
theorem validateLoop_mem (env : ProbeEnv) (minI maxI : ℚ) (m : Nat) :
    ∀ (cands : List String) (i : Nat) (acc : List ProxyItem) (x : ProxyItem),
      x ∈ validateLoop env minI maxI m cands i acc →
      x ∈ acc ∨ ∃ c j, i ≤ j ∧
        x = ⟨c, j, ratAdd minI (ratMul (ratSub maxI minI) (env.unif j)), 0⟩
  | [], i, acc, x, h => Or.inl h
  | c :: rest, i, acc, x, h => by
      simp only [validateLoop] at h
      split at h
      · exact Or.inl h
      · split at h
        · rcases validateLoop_mem env minI maxI m rest (i+1) acc x h with h' | ⟨d, j, hj, he⟩
          · exact Or.inl h'
          · exact Or.inr ⟨d, j, by omega, he⟩
        · split at h
          · rcases validateLoop_mem env minI maxI m rest (i+1) _ x h with h' | ⟨d, j, hj, he⟩
            · rcases List.mem_append.mp h' with h'' | h''
              · exact Or.inl h''
              · exact Or.inr ⟨c, i, le_refl i, by simpa using h''⟩
            · exact Or.inr ⟨d, j, by omega, he⟩
          · rcases validateLoop_mem env minI maxI m rest (i+1) acc x h with h' | ⟨d, j, hj, he⟩
            · exact Or.inl h'
            · exact Or.inr ⟨d, j, by omega, he⟩

/-- The returned `valid_list` never exceeds `max_proxies` entries. -/
theorem validateLoop_length (env : ProbeEnv) (minI maxI : ℚ) (m : Nat) :
    ∀ (cands : List String) (i : Nat) (acc : List ProxyItem),
      acc.length ≤ m → (validateLoop env minI maxI m cands i acc).length ≤ m
  | [], _, _, h => h
  | c :: rest, i, acc, h => by
      simp only [validateLoop]
      split
      · exact h
      next hfull =>
        split
        · exact validateLoop_length env minI maxI m rest (i+1) acc h
        · split
          · refine validateLoop_length env minI maxI m rest (i+1) _ ?_
            simp only [List.length_append, List.length_cons, List.length_nil]
            omega
          · exact validateLoop_length env minI maxI m rest (i+1) acc h

/-- Accepted proxies carry pairwise distinct transport handles: the handles
already accumulated are `< i` and pairwise distinct, and each later
acceptance uses the fresh handle of its iteration. -/
theorem validateLoop_pg_nodup (env : ProbeEnv) (minI maxI : ℚ) (m : Nat) :
    ∀ (cands : List String) (i : Nat) (acc : List ProxyItem),
      (∀ x ∈ acc, x.pg < i) → (acc.map ProxyItem.pg).Nodup →
      ((validateLoop env minI maxI m cands i acc).map ProxyItem.pg).Nodup
  | [], _, _, _, hnd => hnd
  | c :: rest, i, acc, hlt, hnd => by
      simp only [validateLoop]
      split
      · exact hnd
      · split
        · exact validateLoop_pg_nodup env minI maxI m rest (i+1) acc
            (fun x hx => Nat.lt_succ_of_lt (hlt x hx)) hnd
        · split
          · refine validateLoop_pg_nodup env minI maxI m rest (i+1) _ ?_ ?_
            · intro x hx
              rcases List.mem_append.mp hx with hx' | hx'
              · exact Nat.lt_succ_of_lt (hlt x hx')
              · simp only [List.mem_singleton] at hx'
                subst hx'
                exact Nat.lt_succ_self i
            · rw [List.map_append]
              rw [List.nodup_append]
              refine ⟨hnd, by simp, ?_⟩
              intro a ha
              rcases List.mem_map.mp ha with ⟨x, hx, rfl⟩
              simp only [List.map_cons, List.map_nil, List.mem_cons,
                List.not_mem_nil, or_false]
              exact Nat.ne_of_lt (hlt x hx)
          · exact validateLoop_pg_nodup env minI maxI m rest (i+1) acc
              (fun x hx => Nat.lt_succ_of_lt (hlt x hx)) hnd

/-! Facts about the dispatch engine. -/

/-- Every value returned by `get_citation_count` is one of the four error
codes or a citation count extracted from a successfully fetched record. -/
theorem getCitationCount_outcomes (env : Env) :
    ∀ (n : Nat) (s : EngineState),
      (getCitationCount env n s).1 = poolEmptyCode ∨
      (getCitationCount env n s).1 = noProxyAvailableCode ∨
      (getCitationCount env n s).1 = noResultFoundCode ∨
      (getCitationCount env n s).1 = attemptsExhaustedCode ∨
      ∃ k o, env.remote k = RemoteResult.success o ∧
        (getCitationCount env n s).1 = o.getD 0
  | 0, s => by
      right; right; right; left; rfl
  | n+1, s => by
      by_cases hp : s.pool = []
      · left
        simp [getCitationCount, hp]
      · rcases hpk : pickProxyGenerator env 10 s with ⟨o, s₁⟩
        cases o with
        | none =>
            right; left
            simp [getCitationCount, if_neg hp, hpk]
        | some item =>
            rcases hrem : env.remote s₁.qt with _ | oc | msg
            · right; right; left
              simp [getCitationCount, if_neg hp, hpk, hrem]
            · right; right; right; right
              refine ⟨s₁.qt, oc, hrem, ?_⟩
              simp [getCitationCount, if_neg hp, hpk, hrem]
            · have hstep : getCitationCount env (n+1) s = getCitationCount env n
                  { s₁ with pool := s₁.pool.erase item, qt := s₁.qt + 1 } := by
                simp [getCitationCount, if_neg hp, hpk, hrem]
              rw [hstep]
              exact getCitationCount_outcomes env n _

/-- Across a whole `get_citation_count` call the pool's address list shrinks
to a sublist of what it was: members are only ever removed, a removed member
never comes back, and a successful mark changes no address. -/
theorem getCitationCount_url_sublist (env : Env) :
    ∀ (n : Nat) (s : EngineState),
      ((getCitationCount env n s).2.pool.map ProxyItem.proxy_url).Sublist
        (s.pool.map ProxyItem.proxy_url)
  | 0, _ => List.Sublist.refl _
  | n+1, s => by
      by_cases hp : s.pool = []
      · have hres : getCitationCount env (n+1) s = (poolEmptyCode, s) := by
          simp [getCitationCount, hp]
        rw [hres]
      · rcases hpk : pickProxyGenerator env 10 s with ⟨o, s₁⟩
        have hpool : s₁.pool = s.pool := by
          have h := pickProxyGenerator_pool env 10 s
          rw [hpk] at h
          exact h
        cases o with
        | none =>
            have hres : getCitationCount env (n+1) s = (noProxyAvailableCode, s₁) := by
              simp [getCitationCount, if_neg hp, hpk]
            rw [hres, hpool]
        | some item =>
            rcases hrem : env.remote s₁.qt with _ | oc | msg
            · have hres : getCitationCount env (n+1) s =
                  (noResultFoundCode, { s₁ with qt := s₁.qt + 1 }) := by
                simp [getCitationCount, if_neg hp, hpk, hrem]
              rw [hres]
              simp only [hpool]
              exact List.Sublist.refl _
            · have hres : getCitationCount env (n+1) s =
                  (oc.getD 0,
                   { s₁ with
                     pool := markAccess s₁.pool item (env.clock s₁.ct),
                     ct := s₁.ct + 1,
                     qt := s₁.qt + 1 }) := by
                simp [getCitationCount, if_neg hp, hpk, hrem]
              rw [hres]
              have hmk := markAccess_map_url item (env.clock s₁.ct) s.pool
              simp only [hpool, hmk]
              exact List.Sublist.refl _
            · have hstep : getCitationCount env (n+1) s = getCitationCount env n
                  { s₁ with pool := s₁.pool.erase item, qt := s₁.qt + 1 } := by
                simp [getCitationCount, if_neg hp, hpk, hrem]
              rw [hstep]
              have ih := getCitationCount_url_sublist env n
                { s₁ with pool := s₁.pool.erase item, qt := s₁.qt + 1 }
              refine ih.trans ?_
              have h1 : (s₁.pool.erase item).Sublist s.pool := by
                rw [← hpool]
                exact List.erase_sublist item s₁.pool
              exact h1.map _

/-- When every remote attempt raises, a `get_citation_count` run only ever
evicts: the final pool is a sublist of the initial one, and the run ends
with `-1` after exactly `n` evictions, or earlier with `-4` (pool emptied
first) or `-3` (no proxy available), having evicted fewer than `n`. -/
theorem getCitationCount_all_fail (env : Env)
    (hfail : ∀ k, (env.remote k).isFailure = true) :
    ∀ (n : Nat) (s : EngineState),
      (getCitationCount env n s).2.pool.Sublist s.pool ∧
      (((getCitationCount env n s).1 = attemptsExhaustedCode ∧
        (getCitationCount env n s).2.pool.length + n = s.pool.length) ∨
       ((getCitationCount env n s).1 = poolEmptyCode ∧
        (getCitationCount env n s).2.pool = [] ∧ s.pool.length < n) ∨
       ((getCitationCount env n s).1 = noProxyAvailableCode ∧
        s.pool.length - (getCitationCount env n s).2.pool.length < n))
  | 0, s => ⟨List.Sublist.refl _, Or.inl ⟨rfl, rfl⟩⟩
  | n+1, s => by
      by_cases hp : s.pool = []
      · have hres : getCitationCount env (n+1) s = (poolEmptyCode, s) := by
          simp [getCitationCount, hp]
        rw [hres]
        refine ⟨List.Sublist.refl _, Or.inr (Or.inl ⟨rfl, hp, ?_⟩)⟩
        rw [hp]
        simp
      · rcases hpk : pickProxyGenerator env 10 s with ⟨o, s₁⟩
        have hpool : s₁.pool = s.pool := by
          have h := pickProxyGenerator_pool env 10 s
          rw [hpk] at h
          exact h
        cases o with
        | none =>
            have hres : getCitationCount env (n+1) s = (noProxyAvailableCode, s₁) := by
              simp [getCitationCount, if_neg hp, hpk]
            rw [hres]
            constructor
            · rw [hpool]
            · refine Or.inr (Or.inr ⟨rfl, ?_⟩)
              rw [hpool]
              omega
        | some item =>
            rcases hrem : env.remote s₁.qt with _ | oc | msg
            · have h := hfail s₁.qt
              rw [hrem] at h
              simp [RemoteResult.isFailure] at h
            · have h := hfail s₁.qt
              rw [hrem] at h
              simp [RemoteResult.isFailure] at h
            · have hstep : getCitationCount env (n+1) s = getCitationCount env n
                  { s₁ with pool := s₁.pool.erase item, qt := s₁.qt + 1 } := by
                simp [getCitationCount, if_neg hp, hpk, hrem]
              have hmem : item ∈ s₁.pool := by
                rw [hpool]
                exact pickProxyGenerator_mem env 10 s item s₁ hpk
              have hlen : (s₁.pool.erase item).length + 1 = s₁.pool.length :=
                List.length_erase_add_one hmem
              obtain ⟨ihsub, ihdisj⟩ := getCitationCount_all_fail env hfail n
                { s₁ with pool := s₁.pool.erase item, qt := s₁.qt + 1 }
              rw [hstep]
              have hsublen := ihsub.length_le
              simp only [show ({ s₁ with pool := s₁.pool.erase item, qt := s₁.qt + 1 } :
                  EngineState).pool = s₁.pool.erase item from rfl] at ihsub ihdisj hsublen
              have he : (s₁.pool.erase item).Sublist s.pool := by
                rw [← hpool]
                exact List.erase_sublist item s₁.pool
              have hslen : s₁.pool.length = s.pool.length := by rw [hpool]
              refine ⟨ihsub.trans he, ?_⟩
              rcases ihdisj with ⟨h1, h2⟩ | ⟨h1, h2, h3⟩ | ⟨h1, h2⟩
              · exact Or.inl ⟨h1, by omega⟩
              · exact Or.inr (Or.inl ⟨h1, h2, by omega⟩)
              · exact Or.inr (Or.inr ⟨h1, by omega⟩)

/-! Claim theorems. -/

/-- Claim C1: whenever an attempt's remote request raises (refusal signal or
any other exception), the chosen proxy is evicted from the pool, is not
marked used, and the engine continues to the next attempt; when every
attempt fails this way, the call returns `AttemptsExhausted` (`-1`) with the
pool having lost exactly `maxAttempts` members, or ends earlier with
`PoolEmpty` (`-4`) / `NoProxyAvailable` (`-3`) having lost fewer. -/
theorem c1_failure_evicts_and_exhausts (env : Env) :
    (∀ (n : Nat) (s s₁ : EngineState) (item : ProxyItem) (msg : String),
        pickProxyGenerator env 10 s = (some item, s₁) →
        env.remote s₁.qt = RemoteResult.failure msg →
        getCitationCount env (n+1) s =
          getCitationCount env n
            { s₁ with pool := s₁.pool.erase item, qt := s₁.qt + 1 }) ∧
    (∀ (n : Nat) (s : EngineState), (∀ k, (env.remote k).isFailure = true) →
        (getCitationCount env n s).2.pool.Sublist s.pool ∧
        (((getCitationCount env n s).1 = attemptsExhaustedCode ∧
          (getCitationCount env n s).2.pool.length + n = s.pool.length) ∨
         ((getCitationCount env n s).1 = poolEmptyCode ∧
          (getCitationCount env n s).2.pool = [] ∧ s.pool.length < n) ∨
         ((getCitationCount env n s).1 = noProxyAvailableCode ∧
          s.pool.length - (getCitationCount env n s).2.pool.length < n))) := by
  constructor
  · intro n s s₁ item msg hpk hrem
    have hp : s.pool ≠ [] := by
      intro hnil
      have h := pickProxyGenerator_mem env 10 s item s₁ hpk
      rw [hnil] at h
      exact absurd h (List.not_mem_nil item)
    simp [getCitationCount, if_neg hp, hpk, hrem]
  · intro n s hfail
    exact getCitationCount_all_fail env hfail n s

/-- Witness for C1: with two pool members and every remote attempt raising,
two attempts return `-1` and remove both members. -/
theorem c1_witness :
    (∀ k, (envAllFail.remote k).isFailure = true) ∧
    (getCitationCount envAllFail 2 sTwo).2.pool.Sublist sTwo.pool ∧
    (getCitationCount envAllFail 2 sTwo).1 = attemptsExhaustedCode ∧
    (getCitationCount envAllFail 2 sTwo).2.pool.length + 2 = sTwo.pool.length := by
  refine ⟨fun k => rfl, ?_⟩
  obtain ⟨hsub, hd⟩ := (c1_failure_evicts_and_exhausts envAllFail).2 2 sTwo (fun k => rfl)
  refine ⟨hsub, ?_⟩
  rcases hd with ⟨h1, h2⟩ | ⟨h1, -, -⟩ | ⟨h1, -⟩
  · exact ⟨h1, h2⟩
  · exact absurd h1 (by decide)
  · exact absurd h1 (by decide)

/-- Claim C2: the four terminal outcomes are reported through pairwise
distinct sentinel values, and every result of `get_citation_count` is one of
those four sentinels or a citation count from a successful fetch — never a
conflated generic failure value. -/
theorem c2_distinct_sentinels :
    (poolEmptyCode ≠ noProxyAvailableCode ∧ poolEmptyCode ≠ noResultFoundCode ∧
     poolEmptyCode ≠ attemptsExhaustedCode ∧
     noProxyAvailableCode ≠ noResultFoundCode ∧
     noProxyAvailableCode ≠ attemptsExhaustedCode ∧
     noResultFoundCode ≠ attemptsExhaustedCode) ∧
    ∀ (env : Env) (n : Nat) (s : EngineState),
      (getCitationCount env n s).1 = poolEmptyCode ∨
      (getCitationCount env n s).1 = noProxyAvailableCode ∨
      (getCitationCount env n s).1 = noResultFoundCode ∨
      (getCitationCount env n s).1 = attemptsExhaustedCode ∨
      ∃ k o, env.remote k = RemoteResult.success o ∧
        (getCitationCount env n s).1 = o.getD 0 := by
  refine ⟨by decide, ?_⟩
  intro env n s
  exact getCitationCount_outcomes env n s

/-- Counterexample for C4 as stated: a call with `max_retry = 0` on an empty
pool returns `AttemptsExhausted` (`-1`), not `PoolEmpty` (`-4`). -/
theorem c4_counterexample :
    getCitationCount envNoResult 0 sEmpty = (attemptsExhaustedCode, sEmpty) ∧
    attemptsExhaustedCode ≠ poolEmptyCode :=
  ⟨rfl, by decide⟩

/-- Claim C4 (amended): with `maxAttempts ≥ 1`, a call on an empty pool
returns `PoolEmpty` with the state untouched (no clock reading, no random
draw, no remote attempt); with `maxAttempts = 0` it returns
`AttemptsExhausted`, likewise without any network call. -/
theorem c4_empty_pool_returns_pool_empty (env : Env) (n : Nat) (s : EngineState)
    (h : s.pool = []) :
    getCitationCount env (n+1) s = (poolEmptyCode, s) ∧
    getCitationCount env 0 s = (attemptsExhaustedCode, s) := by
  constructor
  · simp [getCitationCount, h]
  · rfl

/-- Witness for C4 (amended) at `maxAttempts = 1` on the empty pool. -/
theorem c4_witness :
    sEmpty.pool = [] ∧
    getCitationCount envNoResult 1 sEmpty = (poolEmptyCode, sEmpty) :=
  ⟨rfl, (c4_empty_pool_returns_pool_empty envNoResult 0 sEmpty rfl).1⟩

/-- Claim C5: when the remote search yields no publication, the call
terminates at once with `NoResultFound` (`-2`), for any remaining attempt
budget, and the pool is exactly what it was — no retry, no eviction, no
mark. -/
theorem c5_no_result_terminates (env : Env) (n : Nat) (s s₁ : EngineState)
    (item : ProxyItem)
    (hpk : pickProxyGenerator env 10 s = (some item, s₁))
    (hrem : env.remote s₁.qt = RemoteResult.noResult) :
    getCitationCount env (n+1) s = (noResultFoundCode, { s₁ with qt := s₁.qt + 1 }) ∧
    ({ s₁ with qt := s₁.qt + 1 } : EngineState).pool = s.pool := by
  have hp : s.pool ≠ [] := by
    intro hnil
    have h := pickProxyGenerator_mem env 10 s item s₁ hpk
    rw [hnil] at h
    exact absurd h (List.not_mem_nil item)
  constructor
  · simp [getCitationCount, if_neg hp, hpk, hrem]
  · have h := pickProxyGenerator_pool env 10 s
    rw [hpk] at h
    exact h

/-- Witness for C5: one available proxy, remote returns no match, budget 1
of several attempts; result is `-2` and the pool is untouched. -/
theorem c5_witness :
    pickProxyGenerator envNoResult 10 sOne = (some itemA, ⟨[itemA], 1, 1, 0⟩) ∧
    getCitationCount envNoResult 3 sOne = (noResultFoundCode, ⟨[itemA], 1, 1, 1⟩) ∧
    (⟨[itemA], 1, 1, 1⟩ : EngineState).pool = sOne.pool := by
  refine ⟨by decide, ?_, by decide⟩
  have h := (c5_no_result_terminates envNoResult 2 sOne ⟨[itemA], 1, 1, 0⟩ itemA
    (by decide) rfl).1
  simpa using h

/-- Claim C6: on a successful remote query the engine marks the chosen proxy
used — its `last_access` becomes the current clock reading — and returns the
record's citation count, defaulting to 0 when the `num_citations` field is
absent. -/
theorem c6_success_marks_and_returns (env : Env) (n : Nat) (s s₁ : EngineState)
    (item : ProxyItem) (o : Option Int)
    (hpk : pickProxyGenerator env 10 s = (some item, s₁))
    (hrem : env.remote s₁.qt = RemoteResult.success o) :
    getCitationCount env (n+1) s =
      (o.getD 0,
       { s₁ with
         pool := markAccess s₁.pool item (env.clock s₁.ct),
         ct := s₁.ct + 1,
         qt := s₁.qt + 1 }) ∧
    { item with last_access := env.clock s₁.ct }
      ∈ markAccess s₁.pool item (env.clock s₁.ct) ∧
    (o = none → o.getD 0 = 0) := by
  have hp : s.pool ≠ [] := by
    intro hnil
    have h := pickProxyGenerator_mem env 10 s item s₁ hpk
    rw [hnil] at h
    exact absurd h (List.not_mem_nil item)
  refine ⟨by simp [getCitationCount, if_neg hp, hpk, hrem], ?_, ?_⟩
  · have hmem : item ∈ s₁.pool := by
      have h1 := pickProxyGenerator_mem env 10 s item s₁ hpk
      have h2 := pickProxyGenerator_pool env 10 s
      rw [hpk] at h2
      rw [h2]
      exact h1
    unfold markAccess
    refine List.mem_map.mpr ⟨item, hmem, ?_⟩
    simp
  · intro h
    subst h
    rfl

/-- Witness for C6: a successful fetch with 50000 citations marks the single
pool member with the current time and returns 50000; a record lacking the
field returns 0. -/
theorem c6_witness :
    getCitationCount envSuccess 1 sOne =
      (50000, ⟨markAccess [itemA] itemA 100, 2, 1, 1⟩) ∧
    getCitationCount envNoField 1 sOne =
      (0, ⟨markAccess [itemA] itemA 100, 2, 1, 1⟩) := by
  constructor
  · have h := (c6_success_marks_and_returns envSuccess 0 sOne ⟨[itemA], 1, 1, 0⟩
      itemA (some 50000) (by decide) rfl).1
    simpa using h
  · have h := (c6_success_marks_and_returns envNoField 0 sOne ⟨[itemA], 1, 1, 0⟩
      itemA none (by decide) rfl).1
    simpa using h

/-- Claim C7: the pool only ever shrinks over a session — across any
`get_citation_count` call the surviving addresses form a sublist of the
initial ones (nothing is added, nothing removed is re-admitted) — and
`_pick_proxy_generator` only returns current pool members. -/
theorem c7_pool_monotone_and_pick_members (env : Env) (k n : Nat) (s : EngineState) :
    (∀ (item : ProxyItem) (s₁ : EngineState),
        pickProxyGenerator env k s = (some item, s₁) → item ∈ s.pool) ∧
    ((getCitationCount env n s).2.pool.map ProxyItem.proxy_url).Sublist
      (s.pool.map ProxyItem.proxy_url) ∧
    (getCitationCount env n s).2.pool.length ≤ s.pool.length := by
  refine ⟨fun item s₁ h => pickProxyGenerator_mem env k s item s₁ h,
    getCitationCount_url_sublist env n s, ?_⟩
  have h := (getCitationCount_url_sublist env n s).length_le
  simpa using h

/-- Witness for C7: the picked member is in the pool, and a run that evicts
both members leaves a (strict) sublist of the initial addresses. -/
theorem c7_witness :
    itemA ∈ sOne.pool ∧
    ((getCitationCount envAllFail 2 sTwo).2.pool.map ProxyItem.proxy_url).Sublist
      (sTwo.pool.map ProxyItem.proxy_url) := by
  constructor
  · exact (c7_pool_monotone_and_pick_members envNoResult 10 1 sOne).1 itemA
      ⟨[itemA], 1, 1, 0⟩ (by decide)
  · exact (c7_pool_monotone_and_pick_members envAllFail 10 2 sTwo).2.1

/-- Claim C8: `_remove_proxy` is idempotent and removing an absent member is
a no-op.  Pool states carry pairwise distinct transport handles — validation
admits each member with a fresh `ProxyGenerator()`, and neither removal nor
marking introduces a duplicate — and on such pools a second identical
removal changes nothing. -/
theorem c8_remove_idempotent :
    (∀ (env : ProbeEnv) (m : Nat) (minI maxI : ℚ) (cands : List String),
        (((validateProxies env m minI maxI cands).pool).map ProxyItem.pg).Nodup) ∧
    (∀ (pool : List ProxyItem) (p : ProxyItem) (now : ℚ),
        (pool.map ProxyItem.pg).Nodup →
        (((pool.erase p).map ProxyItem.pg).Nodup ∧
         ((markAccess pool p now).map ProxyItem.pg).Nodup)) ∧
    (∀ (pool : List ProxyItem) (p : ProxyItem),
        (pool.map ProxyItem.pg).Nodup →
        (pool.erase p).erase p = pool.erase p) ∧
    (∀ (pool : List ProxyItem) (p : ProxyItem), p ∉ pool → pool.erase p = pool) := by
  refine ⟨?_, ?_, ?_, ?_⟩
  · intro env m minI maxI cands
    exact validateLoop_pg_nodup env minI maxI m _ 0 []
      (fun x hx => absurd hx (List.not_mem_nil x)) List.nodup_nil
  · intro pool p now hnd
    constructor
    · exact ((List.erase_sublist p pool).map ProxyItem.pg).nodup hnd
    · rw [markAccess_map_pg]
      exact hnd
  · intro pool p hnd
    have hpool : pool.Nodup := hnd.of_map
    have hnm : p ∉ pool.erase p := by
      intro hmem
      exact absurd (hpool.mem_erase_iff.mp hmem).1 (by simp)
    exact List.erase_of_not_mem hnm
  · intro pool p h
    exact List.erase_of_not_mem h

/-- Witness for C8: removing `itemA` twice from a two-member pool equals
removing it once, and removing the absent `itemB` from a singleton pool is a
no-op. -/
theorem c8_witness :
    (([itemA, itemB].erase itemA).erase itemA = [itemA, itemB].erase itemA) ∧
    [itemA].erase itemB = [itemA] := by
  constructor
  · exact c8_remove_idempotent.2.2.1 [itemA, itemB] itemA (by decide)
  · exact c8_remove_idempotent.2.2.2 [itemA] itemB (by decide)

/-- Counterexample for C3 as stated: with `minIntervalFloor =
maxIntervalCeiling = 5` (parameters the claim quantifies over), the one
accepted proxy is assigned `minInterval = 5`, which does not lie in the
empty half-open interval `[5, 5)`. -/
theorem c3_counterexample :
    (validateProxies probeAccept 1 5 5 ["p"]).pool.length = 1 ∧
    ¬ (∀ x ∈ (validateProxies probeAccept 1 (5:ℚ) 5 ["p"]).pool,
        (5:ℚ) ≤ x.interval ∧ x.interval < 5) := by
  constructor
  · decide
  · decide

/-- Claim C3 (amended): `validate` returns at most `targetCount` proxies for
all parameters; and whenever `minIntervalFloor < maxIntervalCeiling`, every
returned proxy's `minInterval` lies in `[minIntervalFloor,
maxIntervalCeiling)` (the unit-interval draw behind `random.uniform`
satisfies `0 ≤ u < 1`).  The count bound is unconditional; only the interval
bounds need the hypotheses. -/
theorem c3_validate_count_and_bounds (env : ProbeEnv) (m : Nat) (minI maxI : ℚ)
    (cands : List String) :
    (validateProxies env m minI maxI cands).pool.length ≤ m ∧
    ((∀ i, 0 ≤ env.unif i ∧ env.unif i < 1) → minI < maxI →
      ∀ x ∈ (validateProxies env m minI maxI cands).pool,
        minI ≤ x.interval ∧ x.interval < maxI) := by
  constructor
  · exact validateLoop_length env minI maxI m _ 0 [] (Nat.zero_le m)
  · intro hu hlt x hx
    rcases validateLoop_mem env minI maxI m _ 0 [] x hx with h | ⟨c, j, -, he⟩
    · exact absurd h (List.not_mem_nil x)
    · subst he
      dsimp only
      rw [ratAdd_eq, ratMul_eq, ratSub_eq]
      obtain ⟨h0, h1⟩ := hu j
      have hpos : (0:ℚ) < maxI - minI := sub_pos.mpr hlt
      constructor
      · have := mul_nonneg (le_of_lt hpos) h0
        linarith
      · have := (mul_lt_mul_of_pos_left h1 hpos)
        rw [mul_one] at this
        linarith

/-- Witness for C3 (amended): the count bound holds even at the degenerate
parameters `floor = ceiling = 5`; and with floor 5, ceiling 15, unit draw
1/2, the accepted candidate's interval lies within `[5, 15)`. -/
theorem c3_witness :
    (validateProxies probeAccept 2 5 5 ["a", "b"]).pool.length ≤ 2 ∧
    (validateProxies probeAcceptHalf 1 5 15 ["p"]).pool.length ≤ 1 ∧
    ∀ x ∈ (validateProxies probeAcceptHalf 1 5 15 ["p"]).pool,
      (5:ℚ) ≤ x.interval ∧ x.interval < 15 :=
  ⟨(c3_validate_count_and_bounds probeAccept 2 5 5 ["a", "b"]).1,
   (c3_validate_count_and_bounds probeAcceptHalf 1 5 15 ["p"]).1,
   (c3_validate_count_and_bounds probeAcceptHalf 1 5 15 ["p"]).2
     (fun i =>
       ⟨show (0:ℚ) ≤ mkRat 1 2 by decide, show (mkRat 1 2 : ℚ) < 1 by decide⟩)
     (by decide)⟩

/-- Counterexample for C9 as stated: a never-used proxy (`last_access = 0`)
with cooldown 5 is not in the available pool at clock time 1, so a
never-used proxy is not eligible regardless of the current time. -/
theorem c9_counterexample :
    itemC5s.last_access = 0 ∧ itemC5s ∉ getAvailablePool 1 [itemC5s] := by
  constructor
  · decide
  · decide

/-- Claim C9 (amended): validation initialises every admitted proxy with
`last_access = 0` (the "never" value), and such a proxy is in
`_get_available_pool` whenever the current clock reading is at least its
`minInterval` — in particular immediately under a wall clock, which vastly
exceeds any cooldown. -/
theorem c9_never_used_available :
    (∀ (env : ProbeEnv) (m : Nat) (minI maxI : ℚ) (cands : List String)
        (x : ProxyItem),
        x ∈ (validateProxies env m minI maxI cands).pool → x.last_access = 0) ∧
    (∀ (pool : List ProxyItem) (x : ProxyItem) (now : ℚ),
        x ∈ pool → x.last_access = 0 → x.interval ≤ now →
        x ∈ getAvailablePool now pool) := by
  constructor
  · intro env m minI maxI cands x hx
    rcases validateLoop_mem env minI maxI m _ 0 [] x hx with h | ⟨c, j, -, he⟩
    · exact absurd h (List.not_mem_nil x)
    · subst he
      rfl
  · intro pool x now hmem hnever hge
    unfold getAvailablePool
    rw [List.mem_filter]
    refine ⟨hmem, ?_⟩
    rw [decide_eq_true_eq, ratSub_eq, hnever, sub_zero]
    exact hge

/-- Witness for C9 (amended): `itemA` (cooldown 1, never used) is available
at clock time 100. -/
theorem c9_witness : itemA ∈ getAvailablePool 100 [itemA] :=
  c9_never_used_available.2 [itemA] itemA 100 (by decide) (by decide) (by decide)

/-- Counterexample for C10 as stated: `_validate_proxies` shuffles the
caller-supplied candidate list in place; with swap draw 0 the caller's
two-element list comes back reordered, not unchanged. -/
theorem c10_counterexample :
    (validateProxies probeAccept 0 0 1 ["a", "b"]).candidatesAfter = ["b", "a"] ∧
    (validateProxies probeAccept 0 0 1 ["a", "b"]).candidatesAfter ≠ ["a", "b"] := by
  constructor
  · decide
  · decide

/-- Claim C10 (amended): beyond its probes, `validate` touches no
caller-visible state except the candidate list itself, which it reorders in
place — after the call that list is a permutation of (holds exactly the
elements of) the original. -/
theorem c10_validate_only_permutes_candidates (env : ProbeEnv) (m : Nat)
    (minI maxI : ℚ) (cands : List String) :
    (validateProxies env m minI maxI cands).candidatesAfter.Perm cands :=
  shuffle_perm env.shuffleRand cands
